import Mathlib

/-!
Verification of the core data-transformation routines of the
global-drought-monitor dashboard (src/utils.py and the aggregation loop of
src/app.py), shallowly embedded over rationals.  A grid cell is
`Option ℚ`: `none` models a missing value (NaN), `some v` a real reading.
-/

namespace DroughtMonitor

/-- `SPEI_CATEGORIES` from src/utils.py: (label, color, emoji) per category
index 0–6. -/
def SPEI_CATEGORIES : List (String × String × String) :=
  [("Extreme", "#8B0000", "red"),
   ("Severe", "#FF4500", "orange"),
   ("Moderate", "#FFA500", "yellow"),
   ("Mild", "#FFD700", "yellow"),
   ("Normal", "#90EE90", "green"),
   ("Wet", "#00FF00", "blue"),
   ("Very Wet", "#0000FF", "blue")]

/-- The color recorded for category index `idx` in `SPEI_CATEGORIES`. -/
def category_color (idx : Nat) : String :=
  ((SPEI_CATEGORIES.getD idx ("", "", "")).2).1

/-- `categorize_spei` from src/utils.py.  `none` models a NaN input, for
which the Python code returns 4 before reaching the comparison chain. -/
def categorize_spei (spei_val : Option ℚ) : Nat :=
  match spei_val with
  | none => 4
  | some v =>
    if v < -2 then 0
    else if v < -3/2 then 1
    else if v < -1 then 2
    else if v < -1/2 then 3
    else if v ≤ 1/2 then 4
    else if v ≤ 3/2 then 5
    else 6

/-- `spei_to_color` from src/utils.py: the direct value-to-color chain used
when rendering points (8 color bins). -/
def spei_to_color (spei_val : ℚ) : String :=
  if spei_val < -2 then "#8B0000"
  else if spei_val < -3/2 then "#FF4500"
  else if spei_val < -1 then "#FFA500"
  else if spei_val < -1/2 then "#FFD700"
  else if spei_val < 1/2 then "#90EE90"
  else if spei_val < 1 then "#00FF00"
  else if spei_val < 3/2 then "#00CED1"
  else "#0000FF"

/-- Model of `np.argmax`, which returns the index of the first occurrence of
the maximum value: the pair (index, maximum) of a nonempty list, preferring
the head on ties. -/
def argmaxPair {α : Type} [LinearOrder α] : List α → Option (Nat × α)
  | [] => none
  | x :: xs =>
    match argmaxPair xs with
    | none => some (0, x)
    | some (i, v) => if x < v then some (i + 1, v) else some (0, x)

/-- Model of `np.argmin`: the pair (index, minimum) of a nonempty list,
preferring the head on ties, matching first-occurrence semantics. -/
def argminPair {α : Type} [LinearOrder α] : List α → Option (Nat × α)
  | [] => none
  | x :: xs =>
    match argminPair xs with
    | none => some (0, x)
    | some (i, v) => if v < x then some (i + 1, v) else some (0, x)

/-- `np.argmax` on a list, as used on the 7-bucket category counts. -/
def np_argmax (xs : List Nat) : Nat :=
  match argmaxPair xs with
  | none => 0
  | some (i, _) => i

/-- `np.argmin` on a list of absolute differences. -/
def np_argmin {α : Type} [LinearOrder α] (xs : List α) : Nat :=
  match argminPair xs with
  | none => 0
  | some (i, _) => i

/-- `find_nearest_time_index` from src/utils.py.  Timestamps and the target
date are modelled as integer day numbers, so `(tv - target_date).days`
becomes `tv - target` and `np.abs` takes its absolute value. -/
def find_nearest_time_index (time_values : List ℤ) (target_date : ℤ) : Nat :=
  np_argmin (time_values.map (fun tv => |tv - target_date|))

/-- `np.bincount(xs, minlength=7)` for inputs all below 7: the 7-entry
occurrence count list. -/
def bincount7 (xs : List Nat) : List Nat :=
  (List.range 7).map (fun c => xs.count c)

/-- The vote-then-classify aggregation of src/app.py lines 420-428: classify
every sampled value, `np.bincount(..., minlength=7)`, then `np.argmax`. -/
def dominant_category (values : List ℚ) : Nat :=
  np_argmax (bincount7 (values.map (fun v => categorize_spei (some v))))

theorem argmaxPair_eq_none {α : Type} [LinearOrder α] (xs : List α) :
    argmaxPair xs = none ↔ xs = [] := by
  cases xs with
  | nil => simp [argmaxPair]
  | cons x xs =>
    simp only [argmaxPair]
    cases argmaxPair xs with
    | none => simp
    | some p => rcases p with ⟨i, v⟩; by_cases h : x < v <;> simp [h]

theorem argminPair_eq_none {α : Type} [LinearOrder α] (xs : List α) :
    argminPair xs = none ↔ xs = [] := by
  cases xs with
  | nil => simp [argminPair]
  | cons x xs =>
    simp only [argminPair]
    cases argminPair xs with
    | none => simp
    | some p => rcases p with ⟨i, v⟩; by_cases h : v < x <;> simp [h]

theorem argmaxPair_spec {α : Type} [LinearOrder α] (d : α) :
    ∀ (xs : List α) (i : Nat) (v : α), argmaxPair xs = some (i, v) →
      i < xs.length ∧ xs.getD i d = v ∧
        (∀ j, j < xs.length → xs.getD j d ≤ v) ∧
        (∀ j, j < i → xs.getD j d < v) := by
  intro xs
  induction xs with
  | nil => intro i v h; simp [argmaxPair] at h
  | cons x xs ih =>
    intro i v h
    simp only [argmaxPair] at h
    cases htl : argmaxPair xs with
    | none =>
      rw [htl] at h
      obtain rfl : xs = [] := (argmaxPair_eq_none xs).mp htl
      simp only [Option.some.injEq, Prod.mk.injEq] at h
      obtain ⟨rfl, rfl⟩ := h
      refine ⟨by simp, rfl, ?_, by omega⟩
      intro j hj
      obtain rfl : j = 0 := by simpa using hj
      simp
    | some p =>
      rcases p with ⟨i0, v0⟩
      rw [htl] at h
      obtain ⟨hlt, hget, hub, hfirst⟩ := ih i0 v0 htl
      by_cases hx : x < v0
      · simp only [if_pos hx, Option.some.injEq, Prod.mk.injEq] at h
        obtain ⟨rfl, rfl⟩ := h
        refine ⟨by simpa using hlt, by simpa using hget, ?_, ?_⟩
        · intro j hj
          cases j with
          | zero => simpa using hx.le
          | succ k => simpa using hub k (by simpa using hj)
        · intro j hj
          cases j with
          | zero => simpa using hx
          | succ k => simpa using hfirst k (by omega)
      · simp only [if_neg hx, Option.some.injEq, Prod.mk.injEq] at h
        obtain ⟨rfl, rfl⟩ := h
        refine ⟨by simp, rfl, ?_, by omega⟩
        intro j hj
        cases j with
        | zero => simp
        | succ k =>
          have h1 : xs.getD k d ≤ v0 := hub k (by simpa using hj)
          have h2 : v0 ≤ x := not_lt.mp hx
          simpa using h1.trans h2

theorem argminPair_spec {α : Type} [LinearOrder α] (d : α) :
    ∀ (xs : List α) (i : Nat) (v : α), argminPair xs = some (i, v) →
      i < xs.length ∧ xs.getD i d = v ∧
        (∀ j, j < xs.length → v ≤ xs.getD j d) ∧
        (∀ j, j < i → v < xs.getD j d) := by
  intro xs
  induction xs with
  | nil => intro i v h; simp [argminPair] at h
  | cons x xs ih =>
    intro i v h
    simp only [argminPair] at h
    cases htl : argminPair xs with
    | none =>
      rw [htl] at h
      obtain rfl : xs = [] := (argminPair_eq_none xs).mp htl
      simp only [Option.some.injEq, Prod.mk.injEq] at h
      obtain ⟨rfl, rfl⟩ := h
      refine ⟨by simp, rfl, ?_, by omega⟩
      intro j hj
      obtain rfl : j = 0 := by simpa using hj
      simp
    | some p =>
      rcases p with ⟨i0, v0⟩
      rw [htl] at h
      obtain ⟨hlt, hget, hub, hfirst⟩ := ih i0 v0 htl
      by_cases hx : v0 < x
      · simp only [if_pos hx, Option.some.injEq, Prod.mk.injEq] at h
        obtain ⟨rfl, rfl⟩ := h
        refine ⟨by simpa using hlt, by simpa using hget, ?_, ?_⟩
        · intro j hj
          cases j with
          | zero => simpa using hx.le
          | succ k => simpa using hub k (by simpa using hj)
        · intro j hj
          cases j with
          | zero => simpa using hx
          | succ k => simpa using hfirst k (by omega)
      · simp only [if_neg hx, Option.some.injEq, Prod.mk.injEq] at h
        obtain ⟨rfl, rfl⟩ := h
        refine ⟨by simp, rfl, ?_, by omega⟩
        intro j hj
        cases j with
        | zero => simp
        | succ k =>
          have h1 : x ≤ v0 := not_lt.mp hx
          have h2 : v0 ≤ xs.getD k d := hub k (by simpa using hj)
          simpa using h1.trans h2

/-- A geographic region bound: `{lat: [min, max], lon: [min, max]}`. -/
structure Region where
  lat : ℚ × ℚ
  lon : ℚ × ℚ

/-- The coordinate arrays of the dataset that `create_region_slices`
inspects. -/
structure AxisPair where
  lat : List ℚ
  lon : List ℚ

/-- `ds.lat[0] < ds.lat[-1]`: whether a coordinate axis is ascending. -/
def axis_ascending (axis : List ℚ) : Bool :=
  decide (axis.headD 0 < axis.getLastD 0)

/-- `create_region_slices` from src/utils.py: per axis, the slice bound in
the native traversal order of that axis. -/
def create_region_slices (ds : AxisPair) (region : Region) : (ℚ × ℚ) × (ℚ × ℚ) :=
  (if axis_ascending ds.lat then (region.lat.1, region.lat.2)
     else ((region.lat).2, (region.lat).1),
   if axis_ascending ds.lon then (region.lon.1, region.lon.2)
     else ((region.lon).2, (region.lon).1))

/-- Model of xarray label-based slicing `.sel(axis=slice(s.1, s.2))` on a
monotonic coordinate axis: on an ascending axis it keeps the coordinates
`c` with `s.1 ≤ c ≤ s.2`, on a descending axis those with
`s.2 ≤ c ≤ s.1`, in stored order (both endpoints inclusive). -/
def sel_by_label (axis : List ℚ) (s : ℚ × ℚ) : List ℚ :=
  if axis_ascending axis then
    axis.filter (fun c => decide (s.1 ≤ c) && decide (c ≤ s.2))
  else
    axis.filter (fun c => decide (s.2 ≤ c) && decide (c ≤ s.1))

theorem sel_create_slices_lat (ds : AxisPair) (region : Region) :
    sel_by_label ds.lat (create_region_slices ds region).1 =
      ds.lat.filter
        (fun c => decide (region.lat.1 ≤ c) && decide (c ≤ region.lat.2)) := by
  by_cases h : axis_ascending ds.lat <;>
    simp [create_region_slices, sel_by_label, h]

theorem sel_create_slices_lon (ds : AxisPair) (region : Region) :
    sel_by_label ds.lon (create_region_slices ds region).2 =
      ds.lon.filter
        (fun c => decide (region.lon.1 ≤ c) && decide (c ≤ region.lon.2)) := by
  by_cases h : axis_ascending ds.lon <;>
    simp [create_region_slices, sel_by_label, h]

theorem getD_map_of_lt {α β : Type} (f : α → β) (l : List α) (j : Nat)
    (h : j < l.length) (d : α) (d' : β) :
    (l.map f).getD j d' = f (l.getD j d) := by
  rw [List.getD_eq_getElem _ _ (by simpa using h),
    List.getD_eq_getElem _ _ h, List.getElem_map]


/-- C1: `categorize_spei` always lands in 0..6, realises the exact boundary
table `classify(-2.0)=1`, `classify(-0.5)=4`, `classify(0.5)=4`,
`classify(0.500001)=5`, `classify(1.5)=5`, `classify(1.500001)=6`, and maps
a missing input to 4. -/
theorem categorize_spei_boundaries :
    (∀ v : Option ℚ, categorize_spei v ≤ 6) ∧
    categorize_spei (some (-2)) = 1 ∧
    categorize_spei (some (-1/2)) = 4 ∧
    categorize_spei (some (1/2)) = 4 ∧
    categorize_spei (some (500001/1000000)) = 5 ∧
    categorize_spei (some (3/2)) = 5 ∧
    categorize_spei (some (1500001/1000000)) = 6 ∧
    categorize_spei none = 4 := by
  refine ⟨?_, by norm_num [categorize_spei], by norm_num [categorize_spei],
    by norm_num [categorize_spei], by norm_num [categorize_spei],
    by norm_num [categorize_spei], by norm_num [categorize_spei], rfl⟩
  intro v
  match v with
  | none => simp [categorize_spei]
  | some x =>
    simp only [categorize_spei]
    split <;> [skip; split] <;> [omega; omega; split] <;>
      [omega; split] <;> [omega; split] <;> [omega; split] <;> omega


/-- C4: for every coordinate axis pair and region bound with min ≤ max on
each axis, `create_region_slices` returns the slice bounds in the native
traversal order of each axis, so that inclusive label-based slicing selects
exactly the coordinates `c` with `min ≤ c ≤ max`; reversing the latitude
axis (flipping its direction) selects the same set of coordinates
(axis-direction invariance). -/
theorem create_region_slices_spec (ds : AxisPair) (region : Region)
    (hlat : region.lat.1 ≤ region.lat.2) (hlon : region.lon.1 ≤ region.lon.2) :
    (∀ c : ℚ, c ∈ sel_by_label ds.lat (create_region_slices ds region).1 ↔
      c ∈ ds.lat ∧ region.lat.1 ≤ c ∧ c ≤ region.lat.2) ∧
    (∀ c : ℚ, c ∈ sel_by_label ds.lon (create_region_slices ds region).2 ↔
      c ∈ ds.lon ∧ region.lon.1 ≤ c ∧ c ≤ region.lon.2) ∧
    (∀ c : ℚ,
      c ∈ sel_by_label (AxisPair.mk ds.lat.reverse ds.lon).lat
          (create_region_slices (AxisPair.mk ds.lat.reverse ds.lon) region).1 ↔
      c ∈ sel_by_label ds.lat (create_region_slices ds region).1) := by
  refine ⟨?_, ?_, ?_⟩
  · intro c
    rw [sel_create_slices_lat]
    simp [List.mem_filter, and_assoc]
  · intro c
    rw [sel_create_slices_lon]
    simp [List.mem_filter, and_assoc]
  · intro c
    rw [sel_create_slices_lat, sel_create_slices_lat]
    simp [List.mem_filter]

/-- C9: for a non-empty timestamp list, `find_nearest_time_index` returns a
valid index minimizing the absolute day-difference to the target, and on a
tie the first (lowest) such index. -/
theorem find_nearest_time_index_spec (time_values : List ℤ) (target_date : ℤ)
    (h : time_values ≠ []) :
    find_nearest_time_index time_values target_date < time_values.length ∧
    (∀ j, j < time_values.length →
      |time_values.getD (find_nearest_time_index time_values target_date) 0
          - target_date| ≤ |time_values.getD j 0 - target_date|) ∧
    (∀ j, j < find_nearest_time_index time_values target_date →
      |time_values.getD (find_nearest_time_index time_values target_date) 0
          - target_date| < |time_values.getD j 0 - target_date|) := by
  have hne : time_values.map (fun tv => |tv - target_date|) ≠ [] := by
    simpa using h
  cases hp : argminPair (time_values.map (fun tv => |tv - target_date|)) with
  | none => exact absurd ((argminPair_eq_none _).mp hp) hne
  | some p =>
    rcases p with ⟨i, v⟩
    have hr : find_nearest_time_index time_values target_date = i := by
      simp [find_nearest_time_index, np_argmin, hp]
    obtain ⟨hlt, hget, hub, hfirst⟩ := argminPair_spec 0 _ i v hp
    rw [List.length_map] at hlt
    have hvi : |time_values.getD i 0 - target_date| = v := by
      rw [← hget, getD_map_of_lt _ _ i hlt 0 0]
    rw [hr]
    refine ⟨hlt, ?_, ?_⟩
    · intro j hj
      rw [hvi, ← getD_map_of_lt (fun tv => |tv - target_date|) _ j hj 0 0]
      exact hub j (by simpa using hj)
    · intro j hj
      have hjlen : j < time_values.length := hj.trans hlt
      rw [hvi, ← getD_map_of_lt (fun tv => |tv - target_date|) _ j hjlen 0 0]
      exact hfirst j hj

/-- C9 witness: timestamps 2020-01-16, 2020-02-16, 2020-03-16 as day
numbers within 2020 (16, 47, 76) with target 2020-02-01 (day 32) give
index 1, a valid index. -/
theorem find_nearest_time_index_witness :
    find_nearest_time_index [16, 47, 76] 32 = 1 ∧
    find_nearest_time_index [16, 47, 76] 32 < 3 :=
  ⟨by decide,
   by simpa using (find_nearest_time_index_spec [16, 47, 76] 32 (by simp)).1⟩

/-- C4 witness: a concrete ascending latitude axis and descending longitude
axis with bounds [15, 30] and [0, 5]. -/
theorem create_region_slices_witness :
    ((20 : ℚ) ∈ sel_by_label [10, 20, 30]
        (create_region_slices (AxisPair.mk [10, 20, 30] [5, 0])
          (Region.mk (15, 30) (0, 5))).1 ↔
      (20 : ℚ) ∈ [(10 : ℚ), 20, 30] ∧ (15 : ℚ) ≤ 20 ∧ (20 : ℚ) ≤ 30) ∧
    ((5 : ℚ) ∈ sel_by_label [5, 0]
        (create_region_slices (AxisPair.mk [10, 20, 30] [5, 0])
          (Region.mk (15, 30) (0, 5))).2 ↔
      (5 : ℚ) ∈ [(5 : ℚ), 0] ∧ (0 : ℚ) ≤ 5 ∧ (5 : ℚ) ≤ 5) :=
  ⟨(create_region_slices_spec (AxisPair.mk [10, 20, 30] [5, 0])
      (Region.mk (15, 30) (0, 5)) (by norm_num) (by norm_num)).1 20,
   (create_region_slices_spec (AxisPair.mk [10, 20, 30] [5, 0])
      (Region.mk (15, 30) (0, 5)) (by norm_num) (by norm_num)).2.1 5⟩

theorem bincount7_getD (xs : List Nat) (c : Nat) (hc : c < 7) :
    (bincount7 xs).getD c 0 = xs.count c := by
  rw [bincount7, getD_map_of_lt _ _ c (by simpa using hc) 0 0,
    List.getD_eq_getElem _ _ (by simpa using hc), List.getElem_range]

/-- C5: for a non-empty list of sampled values, vote-then-classify returns
the category index with the highest occurrence count among the per-value
classifications, and on a tie the lowest tied index. -/
theorem dominant_category_spec (values : List ℚ) (h : values ≠ []) :
    dominant_category values < 7 ∧
    (∀ c, c < 7 →
      (values.map (fun v => categorize_spei (some v))).count c ≤
        (values.map (fun v => categorize_spei (some v))).count
          (dominant_category values)) ∧
    (∀ c, c < dominant_category values →
      (values.map (fun v => categorize_spei (some v))).count c <
        (values.map (fun v => categorize_spei (some v))).count
          (dominant_category values)) := by
  set cats := values.map (fun v => categorize_spei (some v)) with hcats
  have hlen : (bincount7 cats).length = 7 := by simp [bincount7]
  cases hp : argmaxPair (bincount7 cats) with
  | none =>
    have : bincount7 cats = [] := (argmaxPair_eq_none _).mp hp
    rw [this] at hlen
    simp at hlen
  | some p =>
    rcases p with ⟨i, v⟩
    have hr : dominant_category values = i := by
      simp [dominant_category, np_argmax, ← hcats, hp]
    obtain ⟨hlt, hget, hub, hfirst⟩ := argmaxPair_spec 0 _ i v hp
    rw [hlen] at hlt
    have hvi : cats.count i = v := by rw [← bincount7_getD cats i hlt, hget]
    rw [hr]
    refine ⟨hlt, ?_, ?_⟩
    · intro c hc
      rw [hvi, ← bincount7_getD cats c hc]
      exact hub c (by omega)
    · intro c hc
      rw [hvi, ← bincount7_getD cats c (hc.trans hlt)]
      exact hfirst c hc

/-- C5 witness: values [-3, -3, 0, 0, 0] classify to categories
[0, 0, 4, 4, 4] and Normal (4) wins the vote 3 to 2; the tied count array
[2, 0, 0, 0, 2, 0, 0] yields the lowest tied index 0. -/
theorem dominant_category_witness :
    dominant_category [-3, -3, 0, 0, 0] = 4 ∧
    np_argmax [2, 0, 0, 0, 2, 0, 0] = 0 ∧
    dominant_category [-3, -3, 0, 0, 0] < 7 := by
  have hmap : ([(-3 : ℚ), -3, 0, 0, 0].map (fun v => categorize_spei (some v)))
      = [0, 0, 4, 4, 4] := by
    norm_num [categorize_spei]
  refine ⟨?_, by decide, (dominant_category_spec [-3, -3, 0, 0, 0] (by simp)).1⟩
  rw [dominant_category, hmap]
  decide

/-- A 2-D gridded field: latitude and longitude coordinate arrays and the
value rows (latitude outer, longitude inner); a cell is `none` when the
value is missing (NaN). -/
structure Grid where
  lat : List ℚ
  lon : List ℚ
  values : List (List (Option ℚ))

/-- Well-formedness of a gridded field: the value block is rectangular with
one row per latitude and one column per longitude, as a numpy 2-D array
always is. -/
def Grid.wf (g : Grid) : Prop :=
  g.values.length = g.lat.length ∧ ∀ row ∈ g.values, row.length = g.lon.length

/-- `np.abs(spei_data.lat.values - lat).argmin()`: index of the nearest
latitude grid point. -/
def nearest_lat_idx (g : Grid) (lat : ℚ) : Nat :=
  np_argmin (g.lat.map (fun c => |c - lat|))

/-- `np.abs(spei_data.lon.values - lon).argmin()`: index of the nearest
longitude grid point. -/
def nearest_lon_idx (g : Grid) (lon : ℚ) : Nat :=
  np_argmin (g.lon.map (fun c => |c - lon|))

/-- The clamped square window of `get_region_spei_values` before NaN
filtering: `spei_data.values[lat_start:lat_end, lon_start:lon_end]` with
`half_size = grid_size // 2`, `lat_start = max(0, lat_idx - half_size)`
(natural subtraction), `lat_end = min(len, lat_idx + half_size + 1)`, and
likewise for longitude. -/
def window_rows (g : Grid) (lat lon : ℚ) (grid_size : Nat) :
    List (List (Option ℚ)) :=
  let lat_idx := nearest_lat_idx g lat
  let lon_idx := nearest_lon_idx g lon
  let half_size := grid_size / 2
  let lat_start := lat_idx - half_size
  let lat_end := min g.lat.length (lat_idx + half_size + 1)
  let lon_start := lon_idx - half_size
  let lon_end := min g.lon.length (lon_idx + half_size + 1)
  ((g.values.drop lat_start).take (lat_end - lat_start)).map
    (fun row => (row.drop lon_start).take (lon_end - lon_start))

/-- `get_region_spei_values` from src/utils.py: the values of the clamped
window with missing values removed.  The `try/except` that returns an empty
array when `argmin` raises on an empty coordinate axis is modelled by the
emptiness guard; every other step of the body is total. -/
def get_region_spei_values (g : Grid) (lat lon : ℚ) (grid_size : Nat) :
    List ℚ :=
  if g.lat.isEmpty || g.lon.isEmpty then []
  else ((window_rows g lat lon grid_size).flatten).filterMap id

theorem getD_drop_take {α : Type} (l : List α) (a n i : Nat) (d : α)
    (h : i < ((l.drop a).take n).length) :
    ((l.drop a).take n).getD i d = l.getD (a + i) d ∧ a + i < l.length := by
  have h2 : a + i < l.length := by
    simp only [List.length_take, List.length_drop] at h
    omega
  refine ⟨?_, h2⟩
  rw [List.getD_eq_getElem _ _ h, List.getD_eq_getElem _ _ h2]
  simp [List.getElem_take, List.getElem_drop]

/-- C2 (amended): the sampling window of `get_region_spei_values` holds at
most `(2 * (window_size / 2) + 1) ^ 2` values before NaN filtering — which
equals `window_size ^ 2` when `window_size` is odd, the bound the claim
states for every size — and near grid edges it is clamped to the grid
bounds: cell `(r, c)` of the window is exactly grid cell
`(lat_start + r, lon_start + c)`, an in-bounds index pair, never wrapped or
shifted. -/
theorem get_region_spei_values_window_spec (g : Grid) (lat lon : ℚ)
    (grid_size : Nat) (hwf : g.wf) :
    (window_rows g lat lon grid_size).flatten.length
        ≤ (2 * (grid_size / 2) + 1) ^ 2 ∧
    (get_region_spei_values g lat lon grid_size).length
        ≤ (2 * (grid_size / 2) + 1) ^ 2 ∧
    (grid_size % 2 = 1 →
      (window_rows g lat lon grid_size).flatten.length ≤ grid_size ^ 2) ∧
    (∀ r c, r < (window_rows g lat lon grid_size).length →
      c < ((window_rows g lat lon grid_size).getD r []).length →
      ((window_rows g lat lon grid_size).getD r []).getD c none =
        (g.values.getD (nearest_lat_idx g lat - grid_size / 2 + r) []).getD
          (nearest_lon_idx g lon - grid_size / 2 + c) none ∧
      nearest_lat_idx g lat - grid_size / 2 + r < g.lat.length ∧
      nearest_lon_idx g lon - grid_size / 2 + c < g.lon.length) := by
  obtain ⟨hrows, hcols⟩ := hwf
  have hW : window_rows g lat lon grid_size =
      ((g.values.drop (nearest_lat_idx g lat - grid_size / 2)).take
          (min g.lat.length (nearest_lat_idx g lat + grid_size / 2 + 1) -
            (nearest_lat_idx g lat - grid_size / 2))).map
        (fun row => (row.drop (nearest_lon_idx g lon - grid_size / 2)).take
          (min g.lon.length (nearest_lon_idx g lon + grid_size / 2 + 1) -
            (nearest_lon_idx g lon - grid_size / 2))) := rfl
  have hWlen : (window_rows g lat lon grid_size).length ≤
      2 * (grid_size / 2) + 1 := by
    rw [hW]
    simp only [List.length_map, List.length_take, List.length_drop]
    omega
  have hrowlen : ∀ row ∈ window_rows g lat lon grid_size,
      row.length ≤ 2 * (grid_size / 2) + 1 := by
    intro row hrow
    rw [hW] at hrow
    obtain ⟨row0, _, rfl⟩ := List.mem_map.mp hrow
    simp only [List.length_take, List.length_drop]
    omega
  have hflat : (window_rows g lat lon grid_size).flatten.length
      ≤ (2 * (grid_size / 2) + 1) ^ 2 := by
    rw [List.length_flatten]
    have h1 : ((window_rows g lat lon grid_size).map List.length).sum ≤
        ((window_rows g lat lon grid_size).map List.length).length *
          (2 * (grid_size / 2) + 1) := by
      have := List.sum_le_card_nsmul
        ((window_rows g lat lon grid_size).map List.length)
        (2 * (grid_size / 2) + 1) ?_
      · simpa using this
      · intro x hx
        obtain ⟨row, hrow, rfl⟩ := List.mem_map.mp hx
        exact hrowlen row hrow
    have h2 : ((window_rows g lat lon grid_size).map List.length).length ≤
        2 * (grid_size / 2) + 1 := by simpa using hWlen
    calc ((window_rows g lat lon grid_size).map List.length).sum
        ≤ _ * (2 * (grid_size / 2) + 1) := h1
      _ ≤ (2 * (grid_size / 2) + 1) * (2 * (grid_size / 2) + 1) :=
          Nat.mul_le_mul_right _ h2
      _ = (2 * (grid_size / 2) + 1) ^ 2 := (sq (2 * (grid_size / 2) + 1)).symm
  refine ⟨hflat, ?_, ?_, ?_⟩
  · rw [get_region_spei_values]
    split
    · simp
    · exact (List.length_filterMap_le _ _).trans hflat
  · intro hodd
    have hB : 2 * (grid_size / 2) + 1 = grid_size := by omega
    have h3 := hflat
    rw [hB] at h3
    exact h3
  · intro r c hr hc
    rw [hW] at hr hc ⊢
    rw [getD_map_of_lt _ _ r (by simpa using hr) [] []] at hc ⊢
    obtain ⟨hrowD, hrlt⟩ := getD_drop_take g.values _ _ r [] (by simpa using hr)
    rw [hrowD] at hc ⊢
    obtain ⟨hcolD, hclt⟩ := getD_drop_take
      (g.values.getD (nearest_lat_idx g lat - grid_size / 2 + r) []) _ _ c none hc
    rw [hcolD]
    have hrowmem : g.values.getD (nearest_lat_idx g lat - grid_size / 2 + r) []
        ∈ g.values := by
      rw [List.getD_eq_getElem _ _ hrlt]
      exact List.getElem_mem _
    refine ⟨rfl, ?_, ?_⟩
    · omega
    · have := hcols _ hrowmem
      omega

/-- A concrete 3 x 3 fully-valid grid used to exercise the sampler. -/
def sampleGrid3 : Grid :=
  Grid.mk [0, 1, 2] [0, 1, 2]
    [[some 0, some 0, some 0], [some 0, some 0, some 0],
     [some 0, some 0, some 0]]

theorem sampleGrid3_nearest_lat : nearest_lat_idx sampleGrid3 1 = 1 := by
  have hmap : (sampleGrid3.lat.map (fun c => |c - 1|)) = [1, 0, 1] := by
    norm_num [sampleGrid3]
  rw [nearest_lat_idx, hmap]
  decide

theorem sampleGrid3_nearest_lon : nearest_lon_idx sampleGrid3 1 = 1 := by
  have hmap : (sampleGrid3.lon.map (fun c => |c - 1|)) = [1, 0, 1] := by
    norm_num [sampleGrid3]
  rw [nearest_lon_idx, hmap]
  decide

/-- C2 counterexample: with `window_size = 2` (the code calls the sampler
with the even size 50 for Australia) the window spans
`2 * (window_size / 2) + 1 = 3` cells per axis, so on a 3 x 3 grid the
sampler returns 9 values — more than `window_size ^ 2 = 4` — already before
NaN filtering. -/
theorem get_region_spei_values_counterexample :
    2 ^ 2 < (window_rows sampleGrid3 1 1 2).flatten.length ∧
    2 ^ 2 < (get_region_spei_values sampleGrid3 1 1 2).length := by
  constructor
  · simp only [window_rows, sampleGrid3_nearest_lat, sampleGrid3_nearest_lon]
    decide
  · simp only [get_region_spei_values, window_rows, sampleGrid3_nearest_lat,
      sampleGrid3_nearest_lon]
    decide

/-- C2 witness: the amended bound instantiated on the 3 x 3 grid with
`window_size = 2`. -/
theorem get_region_spei_values_window_witness :
    (window_rows sampleGrid3 1 1 2).flatten.length ≤ (2 * (2 / 2) + 1) ^ 2 ∧
    (get_region_spei_values sampleGrid3 1 1 2).length
      ≤ (2 * (2 / 2) + 1) ^ 2 :=
  ⟨(get_region_spei_values_window_spec sampleGrid3 1 1 2
      ⟨by decide, by decide⟩).1,
   (get_region_spei_values_window_spec sampleGrid3 1 1 2
      ⟨by decide, by decide⟩).2.1⟩

/-- C3 counterexample: at v = 1 the direct point coloring returns
"#00CED1", a color that does not occur in `SPEI_CATEGORIES` at all, while
classify-then-look-up yields category 5 whose stored color is "#00FF00". -/
theorem spei_to_color_counterexample :
    spei_to_color 1 = "#00CED1" ∧
    categorize_spei (some 1) = 5 ∧
    category_color 5 = "#00FF00" ∧
    spei_to_color 1 ≠ category_color (categorize_spei (some 1)) := by
  have h1 : spei_to_color 1 = "#00CED1" := by norm_num [spei_to_color]
  have h2 : categorize_spei (some 1) = 5 := by norm_num [categorize_spei]
  refine ⟨h1, h2, by decide, ?_⟩
  rw [h1, h2]
  decide

/-- C3 (amended): the direct coloring `spei_to_color` agrees with the
category color of `categorize_spei` exactly on values below 1 other than
0.5 and on values above 1.5; the two colorings differ at 0.5 and on
[1, 1.5], where `spei_to_color` uses its two extra bins. -/
theorem spei_to_color_matches_category (v : ℚ)
    (hv : (v < 1 ∧ v ≠ 1/2) ∨ 3/2 < v) :
    spei_to_color v = category_color (categorize_spei (some v)) := by
  rcases hv with ⟨hlt, hne⟩ | hgt
  · by_cases h1 : v < -2
    · have hL : spei_to_color v = "#8B0000" := by
        simp only [spei_to_color]; rw [if_pos h1]
      have hR : categorize_spei (some v) = 0 := by
        simp only [categorize_spei]; rw [if_pos h1]
      rw [hL, hR]; decide
    · by_cases h2 : v < -3/2
      · have hL : spei_to_color v = "#FF4500" := by
          simp only [spei_to_color]; rw [if_neg h1, if_pos h2]
        have hR : categorize_spei (some v) = 1 := by
          simp only [categorize_spei]; rw [if_neg h1, if_pos h2]
        rw [hL, hR]; decide
      · by_cases h3 : v < -1
        · have hL : spei_to_color v = "#FFA500" := by
            simp only [spei_to_color]; rw [if_neg h1, if_neg h2, if_pos h3]
          have hR : categorize_spei (some v) = 2 := by
            simp only [categorize_spei]; rw [if_neg h1, if_neg h2, if_pos h3]
          rw [hL, hR]; decide
        · by_cases h4 : v < -1/2
          · have hL : spei_to_color v = "#FFD700" := by
              simp only [spei_to_color]
              rw [if_neg h1, if_neg h2, if_neg h3, if_pos h4]
            have hR : categorize_spei (some v) = 3 := by
              simp only [categorize_spei]
              rw [if_neg h1, if_neg h2, if_neg h3, if_pos h4]
            rw [hL, hR]; decide
          · by_cases h5 : v < 1/2
            · have hL : spei_to_color v = "#90EE90" := by
                simp only [spei_to_color]
                rw [if_neg h1, if_neg h2, if_neg h3, if_neg h4, if_pos h5]
              have hR : categorize_spei (some v) = 4 := by
                simp only [categorize_spei]
                rw [if_neg h1, if_neg h2, if_neg h3, if_neg h4, if_pos h5.le]
              rw [hL, hR]; decide
            · have h6 : ¬ v ≤ 1/2 :=
                fun hc => hne (le_antisymm hc (not_lt.mp h5))
              have h7 : v ≤ 3/2 := by linarith
              have hL : spei_to_color v = "#00FF00" := by
                simp only [spei_to_color]
                rw [if_neg h1, if_neg h2, if_neg h3, if_neg h4, if_neg h5,
                  if_pos hlt]
              have hR : categorize_spei (some v) = 5 := by
                simp only [categorize_spei]
                rw [if_neg h1, if_neg h2, if_neg h3, if_neg h4, if_neg h6,
                  if_pos h7]
              rw [hL, hR]; decide
  · have h1 : ¬ v < -2 := by linarith
    have h2 : ¬ v < -3/2 := by linarith
    have h3 : ¬ v < -1 := by linarith
    have h4 : ¬ v < -1/2 := by linarith
    have h5 : ¬ v < 1/2 := by linarith
    have h5a : ¬ v < 1 := by linarith
    have h6 : ¬ v ≤ 1/2 := by linarith
    have h7 : ¬ v ≤ 3/2 := by linarith
    have h8 : ¬ v < 3/2 := by linarith
    have hL : spei_to_color v = "#0000FF" := by
      simp only [spei_to_color]
      rw [if_neg h1, if_neg h2, if_neg h3, if_neg h4, if_neg h5, if_neg h5a,
        if_neg h8]
    have hR : categorize_spei (some v) = 6 := by
      simp only [categorize_spei]
      rw [if_neg h1, if_neg h2, if_neg h3, if_neg h4, if_neg h6, if_neg h7]
    rw [hL, hR]; decide

/-- C3 witness: the amended agreement instantiated at v = 0, where both
sides give the Normal color "#90EE90". -/
theorem spei_to_color_matches_category_witness :
    spei_to_color 0 = category_color (categorize_spei (some 0)) :=
  spei_to_color_matches_category 0 (Or.inl ⟨by norm_num, by norm_num⟩)

/-- The indexed threshold predicate list of `calculate_category_count` from
src/utils.py.  numpy comparisons against NaN are false, so a missing cell
(`none`) satisfies none of the seven predicates. -/
def category_thresholds : List (Option ℚ → Bool) :=
  [fun o => match o with
    | none => false
    | some v => decide (v < -2),
   fun o => match o with
    | none => false
    | some v => decide ((-2 : ℚ) ≤ v) && decide (v < -3/2),
   fun o => match o with
    | none => false
    | some v => decide ((-3 : ℚ)/2 ≤ v) && decide (v < -1),
   fun o => match o with
    | none => false
    | some v => decide ((-1 : ℚ) ≤ v) && decide (v < -1/2),
   fun o => match o with
    | none => false
    | some v => decide ((-1 : ℚ)/2 ≤ v) && decide (v ≤ 1/2),
   fun o => match o with
    | none => false
    | some v => decide ((1 : ℚ)/2 < v) && decide (v ≤ 3/2),
   fun o => match o with
    | none => false
    | some v => decide ((3 : ℚ)/2 < v)]

/-- `calculate_category_count` from src/utils.py: `np.sum` of the boolean
mask produced by the selected threshold predicate. -/
def calculate_category_count (spei_values : List (Option ℚ))
    (category_idx : Nat) : Nat :=
  spei_values.countP (category_thresholds.getD category_idx (fun _ => false))

theorem flags_sum_some (v : ℚ) :
    ((if ((category_thresholds.getD 0 (fun _ => false)) (some v) : Bool)
        then (1 : ℕ) else 0) +
     (if ((category_thresholds.getD 1 (fun _ => false)) (some v) : Bool)
        then 1 else 0) +
     (if ((category_thresholds.getD 2 (fun _ => false)) (some v) : Bool)
        then 1 else 0) +
     (if ((category_thresholds.getD 3 (fun _ => false)) (some v) : Bool)
        then 1 else 0) +
     (if ((category_thresholds.getD 4 (fun _ => false)) (some v) : Bool)
        then 1 else 0) +
     (if ((category_thresholds.getD 5 (fun _ => false)) (some v) : Bool)
        then 1 else 0) +
     (if ((category_thresholds.getD 6 (fun _ => false)) (some v) : Bool)
        then 1 else 0)) = 1 := by
  have g0 : (category_thresholds.getD 0 (fun _ => false)) (some v) =
      decide (v < -2) := rfl
  have g1 : (category_thresholds.getD 1 (fun _ => false)) (some v) =
      (decide ((-2 : ℚ) ≤ v) && decide (v < -3/2)) := rfl
  have g2 : (category_thresholds.getD 2 (fun _ => false)) (some v) =
      (decide ((-3 : ℚ)/2 ≤ v) && decide (v < -1)) := rfl
  have g3 : (category_thresholds.getD 3 (fun _ => false)) (some v) =
      (decide ((-1 : ℚ) ≤ v) && decide (v < -1/2)) := rfl
  have g4 : (category_thresholds.getD 4 (fun _ => false)) (some v) =
      (decide ((-1 : ℚ)/2 ≤ v) && decide (v ≤ 1/2)) := rfl
  have g5 : (category_thresholds.getD 5 (fun _ => false)) (some v) =
      (decide ((1 : ℚ)/2 < v) && decide (v ≤ 3/2)) := rfl
  have g6 : (category_thresholds.getD 6 (fun _ => false)) (some v) =
      decide ((3 : ℚ)/2 < v) := rfl
  simp only [g0, g1, g2, g3, g4, g5, g6, Bool.and_eq_true, decide_eq_true_eq]
  by_cases h1 : v < -2
  · rw [if_pos (show v < -2 by linarith),
      if_neg (show ¬((-2 : ℚ) ≤ v ∧ v < -3/2) by rintro ⟨ha, hb⟩; linarith),
      if_neg (show ¬((-3 : ℚ)/2 ≤ v ∧ v < -1) by rintro ⟨ha, hb⟩; linarith),
      if_neg (show ¬((-1 : ℚ) ≤ v ∧ v < -1/2) by rintro ⟨ha, hb⟩; linarith),
      if_neg (show ¬((-1 : ℚ)/2 ≤ v ∧ v ≤ 1/2) by rintro ⟨ha, hb⟩; linarith),
      if_neg (show ¬((1 : ℚ)/2 < v ∧ v ≤ 3/2) by rintro ⟨ha, hb⟩; linarith),
      if_neg (show ¬((3 : ℚ)/2 < v) by intro ha; linarith)]
  · by_cases h2 : v < -3/2
    · rw [if_neg (show ¬(v < -2) by intro ha; linarith),
        if_pos (show (-2 : ℚ) ≤ v ∧ v < -3/2 by constructor <;> linarith),
        if_neg (show ¬((-3 : ℚ)/2 ≤ v ∧ v < -1) by rintro ⟨ha, hb⟩; linarith),
        if_neg (show ¬((-1 : ℚ) ≤ v ∧ v < -1/2) by rintro ⟨ha, hb⟩; linarith),
        if_neg (show ¬((-1 : ℚ)/2 ≤ v ∧ v ≤ 1/2) by rintro ⟨ha, hb⟩; linarith),
        if_neg (show ¬((1 : ℚ)/2 < v ∧ v ≤ 3/2) by rintro ⟨ha, hb⟩; linarith),
        if_neg (show ¬((3 : ℚ)/2 < v) by intro ha; linarith)]
    · by_cases h3 : v < -1
      · rw [if_neg (show ¬(v < -2) by intro ha; linarith),
          if_neg (show ¬((-2 : ℚ) ≤ v ∧ v < -3/2) by rintro ⟨ha, hb⟩; linarith),
          if_pos (show (-3 : ℚ)/2 ≤ v ∧ v < -1 by constructor <;> linarith),
          if_neg (show ¬((-1 : ℚ) ≤ v ∧ v < -1/2) by rintro ⟨ha, hb⟩; linarith),
          if_neg (show ¬((-1 : ℚ)/2 ≤ v ∧ v ≤ 1/2) by rintro ⟨ha, hb⟩; linarith),
          if_neg (show ¬((1 : ℚ)/2 < v ∧ v ≤ 3/2) by rintro ⟨ha, hb⟩; linarith),
          if_neg (show ¬((3 : ℚ)/2 < v) by intro ha; linarith)]
      · by_cases h4 : v < -1/2
        · rw [if_neg (show ¬(v < -2) by intro ha; linarith),
            if_neg (show ¬((-2 : ℚ) ≤ v ∧ v < -3/2) by rintro ⟨ha, hb⟩; linarith),
            if_neg (show ¬((-3 : ℚ)/2 ≤ v ∧ v < -1) by rintro ⟨ha, hb⟩; linarith),
            if_pos (show (-1 : ℚ) ≤ v ∧ v < -1/2 by constructor <;> linarith),
            if_neg (show ¬((-1 : ℚ)/2 ≤ v ∧ v ≤ 1/2) by rintro ⟨ha, hb⟩; linarith),
            if_neg (show ¬((1 : ℚ)/2 < v ∧ v ≤ 3/2) by rintro ⟨ha, hb⟩; linarith),
            if_neg (show ¬((3 : ℚ)/2 < v) by intro ha; linarith)]
        · by_cases h5 : v ≤ 1/2
          · rw [if_neg (show ¬(v < -2) by intro ha; linarith),
              if_neg (show ¬((-2 : ℚ) ≤ v ∧ v < -3/2) by rintro ⟨ha, hb⟩; linarith),
              if_neg (show ¬((-3 : ℚ)/2 ≤ v ∧ v < -1) by rintro ⟨ha, hb⟩; linarith),
              if_neg (show ¬((-1 : ℚ) ≤ v ∧ v < -1/2) by rintro ⟨ha, hb⟩; linarith),
              if_pos (show (-1 : ℚ)/2 ≤ v ∧ v ≤ 1/2 by constructor <;> linarith),
              if_neg (show ¬((1 : ℚ)/2 < v ∧ v ≤ 3/2) by rintro ⟨ha, hb⟩; linarith),
              if_neg (show ¬((3 : ℚ)/2 < v) by intro ha; linarith)]
          · by_cases h6 : v ≤ 3/2
            · rw [if_neg (show ¬(v < -2) by intro ha; linarith),
                if_neg (show ¬((-2 : ℚ) ≤ v ∧ v < -3/2) by rintro ⟨ha, hb⟩; linarith),
                if_neg (show ¬((-3 : ℚ)/2 ≤ v ∧ v < -1) by rintro ⟨ha, hb⟩; linarith),
                if_neg (show ¬((-1 : ℚ) ≤ v ∧ v < -1/2) by rintro ⟨ha, hb⟩; linarith),
                if_neg (show ¬((-1 : ℚ)/2 ≤ v ∧ v ≤ 1/2) by rintro ⟨ha, hb⟩; linarith),
                if_pos (show (1 : ℚ)/2 < v ∧ v ≤ 3/2 by constructor <;> linarith),
                if_neg (show ¬((3 : ℚ)/2 < v) by intro ha; linarith)]
            · rw [if_neg (show ¬(v < -2) by intro ha; linarith),
                if_neg (show ¬((-2 : ℚ) ≤ v ∧ v < -3/2) by rintro ⟨ha, hb⟩; linarith),
                if_neg (show ¬((-3 : ℚ)/2 ≤ v ∧ v < -1) by rintro ⟨ha, hb⟩; linarith),
                if_neg (show ¬((-1 : ℚ) ≤ v ∧ v < -1/2) by rintro ⟨ha, hb⟩; linarith),
                if_neg (show ¬((-1 : ℚ)/2 ≤ v ∧ v ≤ 1/2) by rintro ⟨ha, hb⟩; linarith),
                if_neg (show ¬((1 : ℚ)/2 < v ∧ v ≤ 3/2) by rintro ⟨ha, hb⟩; linarith),
                if_pos (show (3 : ℚ)/2 < v by linarith)]

theorem counts_sum (vals : List (Option ℚ)) :
    calculate_category_count vals 0 + calculate_category_count vals 1 +
    calculate_category_count vals 2 + calculate_category_count vals 3 +
    calculate_category_count vals 4 + calculate_category_count vals 5 +
    calculate_category_count vals 6 = (vals.filterMap id).length := by
  induction vals with
  | nil => rfl
  | cons o l ih =>
    simp only [calculate_category_count, List.countP_cons] at ih ⊢
    cases o with
    | none =>
      have e0 : (category_thresholds.getD 0 (fun _ => false)) none = false :=
        rfl
      have e1 : (category_thresholds.getD 1 (fun _ => false)) none = false :=
        rfl
      have e2 : (category_thresholds.getD 2 (fun _ => false)) none = false :=
        rfl
      have e3 : (category_thresholds.getD 3 (fun _ => false)) none = false :=
        rfl
      have e4 : (category_thresholds.getD 4 (fun _ => false)) none = false :=
        rfl
      have e5 : (category_thresholds.getD 5 (fun _ => false)) none = false :=
        rfl
      have e6 : (category_thresholds.getD 6 (fun _ => false)) none = false :=
        rfl
      rw [e0, e1, e2, e3, e4, e5, e6]
      simp only [Bool.false_eq_true, if_false, Nat.add_zero]
      rw [List.filterMap_cons_none (by rfl)]
      exact ih
    | some v =>
      have hflags := flags_sum_some v
      rw [List.filterMap_cons_some (by rfl)]
      simp only [List.length_cons]
      omega

/-- C6: the seven per-category counts of `calculate_category_count`
partition the non-missing values — their sum equals the number of valid
elements — so the per-category percentages
`count / total_valid_count * 100` sum to exactly 100 when the region has
any valid value. -/
theorem calculate_category_count_partition (spei_values : List (Option ℚ)) :
    (∑ idx ∈ Finset.range 7, calculate_category_count spei_values idx) =
      (spei_values.filterMap id).length ∧
    (0 < (spei_values.filterMap id).length →
      (∑ idx ∈ Finset.range 7,
        (calculate_category_count spei_values idx : ℚ) /
          ((spei_values.filterMap id).length : ℚ) * 100) = 100) := by
  have hsum : (∑ idx ∈ Finset.range 7,
      calculate_category_count spei_values idx) =
      (spei_values.filterMap id).length := by
    have h7 := counts_sum spei_values
    rw [Finset.sum_range_succ, Finset.sum_range_succ, Finset.sum_range_succ,
      Finset.sum_range_succ, Finset.sum_range_succ, Finset.sum_range_succ,
      Finset.sum_range_succ, Finset.sum_range_zero]
    omega
  refine ⟨hsum, ?_⟩
  intro hpos
  have hL : ((spei_values.filterMap id).length : ℚ) ≠ 0 :=
    Nat.cast_ne_zero.mpr hpos.ne'
  have hstep : (∑ idx ∈ Finset.range 7,
      (calculate_category_count spei_values idx : ℚ) /
        ((spei_values.filterMap id).length : ℚ) * 100) =
      (∑ idx ∈ Finset.range 7,
        (calculate_category_count spei_values idx : ℚ)) /
        ((spei_values.filterMap id).length : ℚ) * 100 := by
    rw [Finset.sum_div, Finset.sum_mul]
  rw [hstep, ← Nat.cast_sum, hsum]
  field_simp

/-- The triple list underlying `prepare_mapbox_data` from src/utils.py:
`np.meshgrid(lon, lat)` gives a latitude matrix whose row `i` repeats
`lat[i]` and a longitude matrix whose every row is `lon`; the three
matrices are flattened row-major, zipped, and the triples with a missing
value are dropped (the boolean mask applied to all three flat arrays). -/
def mapbox_triples (g : Grid) : List (ℚ × ℚ × ℚ) :=
  (((g.lat.map (fun la => g.lon.map (fun _ => la))).flatten).zip
      (((g.lat.map (fun _ => g.lon)).flatten).zip g.values.flatten)).filterMap
    (fun t => t.2.2.map (fun x => (t.1, t.2.1, x)))

/-- `prepare_mapbox_data` from src/utils.py: the cleaned parallel
latitude, longitude and value sequences. -/
def prepare_mapbox_data (g : Grid) : List ℚ × List ℚ × List ℚ :=
  ((mapbox_triples g).map (fun t => t.1),
   (mapbox_triples g).map (fun t => t.2.1),
   (mapbox_triples g).map (fun t => t.2.2))

/-- The triples contributed by one latitude row. -/
def rowTriples (la : ℚ) (lon : List ℚ) (row : List (Option ℚ)) :
    List (ℚ × ℚ × ℚ) :=
  (lon.zip row).filterMap (fun p => p.2.map (fun x => (la, p.1, x)))

theorem zip_const_rowTriples (la : ℚ) :
    ∀ (lon : List ℚ) (row : List (Option ℚ)),
      ((lon.map (fun _ => la)).zip (lon.zip row)).filterMap
        (fun t => t.2.2.map (fun x => (t.1, t.2.1, x))) =
        rowTriples la lon row := by
  intro lon
  induction lon with
  | nil => intro row; rfl
  | cons lo lon ih =>
    intro row
    cases row with
    | nil => rfl
    | cons v row =>
      cases v with
      | none =>
        simp only [rowTriples, List.map_cons, List.zip_cons_cons,
          List.filterMap_cons, Option.map_none]
        exact ih row
      | some x =>
        simp only [rowTriples, List.map_cons, List.zip_cons_cons,
          List.filterMap_cons, Option.map_some]
        rw [← rowTriples, ih row]

theorem mapbox_triples_eq (g : Grid) (hwf : g.wf) :
    mapbox_triples g =
      ((g.lat.zip g.values).map (fun p => rowTriples p.1 g.lon p.2)).flatten := by
  obtain ⟨hrows, hcols⟩ := hwf
  rcases g with ⟨lat, lon, values⟩
  simp only at hrows hcols ⊢
  rw [mapbox_triples]
  simp only
  induction lat generalizing values with
  | nil =>
    have : values = [] := List.length_eq_zero.mp (by simpa using hrows)
    subst this
    rfl
  | cons la lat ih =>
    cases values with
    | nil => simp at hrows
    | cons row rows =>
      have hrow : row.length = lon.length := hcols row (by simp)
      have hrows2 : rows.length = lat.length := by simpa using hrows
      have hcols2 : ∀ r ∈ rows, r.length = lon.length := by
        intro r hr
        exact hcols r (by simp [hr])
      simp only [List.map_cons, List.flatten_cons, List.zip_cons_cons]
      rw [List.zip_append (by simpa using hrow.symm)]
      rw [List.zip_append (by simp [hrow])]
      rw [List.filterMap_append]
      rw [zip_const_rowTriples la lon row]
      rw [ih rows hrows2 hcols2]

theorem mem_rowTriples (la : ℚ) :
    ∀ (lon : List ℚ) (row : List (Option ℚ)) (t : ℚ × ℚ × ℚ),
      t ∈ rowTriples la lon row →
      t.1 = la ∧ ∃ j, j < lon.length ∧ j < row.length ∧
        t.2.1 = lon.getD j 0 ∧ row.getD j none = some t.2.2 := by
  intro lon
  induction lon with
  | nil =>
    intro row t ht
    simp [rowTriples] at ht
  | cons lo lon ih =>
    intro row t ht
    cases row with
    | nil => simp [rowTriples] at ht
    | cons v row =>
      cases v with
      | none =>
        have ht2 : t ∈ rowTriples la lon row := by
          simpa only [rowTriples, List.zip_cons_cons, List.filterMap_cons,
            Option.map_none] using ht
        obtain ⟨h1, j, hj1, hj2, hj3, hj4⟩ := ih row t ht2
        refine ⟨h1, j + 1, by simpa using hj1, by simpa using hj2, ?_, ?_⟩
        · simpa using hj3
        · simpa using hj4
      | some x =>
        simp only [rowTriples, List.zip_cons_cons, List.filterMap_cons,
          Option.map_some] at ht
        rcases List.mem_cons.mp ht with rfl | htl
        · exact ⟨rfl, 0, by simp, by simp, by simp, by simp⟩
        · have ht2 : t ∈ rowTriples la lon row := by
            simpa only [rowTriples] using htl
          obtain ⟨h1, j, hj1, hj2, hj3, hj4⟩ := ih row t ht2
          refine ⟨h1, j + 1, by simpa using hj1, by simpa using hj2, ?_, ?_⟩
          · simpa using hj3
          · simpa using hj4

theorem rowTriples_length (la : ℚ) :
    ∀ (lon : List ℚ) (row : List (Option ℚ)), row.length = lon.length →
      (rowTriples la lon row).length = (row.filterMap id).length := by
  intro lon
  induction lon with
  | nil =>
    intro row h
    obtain rfl : row = [] := List.length_eq_zero.mp (by simpa using h)
    rfl
  | cons lo lon ih =>
    intro row h
    cases row with
    | nil => simp at h
    | cons v row =>
      have h2 : row.length = lon.length := by simpa using h
      cases v with
      | none =>
        simp only [rowTriples, List.zip_cons_cons, List.filterMap_cons,
          Option.map_none]
        have := ih row h2
        simp only [rowTriples] at this
        simpa using this
      | some x =>
        simp only [rowTriples, List.zip_cons_cons, List.filterMap_cons,
          Option.map_some, List.length_cons]
        have := ih row h2
        simp only [rowTriples] at this
        simpa using this

theorem zip_rowTriples_sum (lon : List ℚ) :
    ∀ (lat : List ℚ) (values : List (List (Option ℚ))),
      values.length = lat.length →
      (∀ row ∈ values, row.length = lon.length) →
      (((lat.zip values).map
          (fun p => rowTriples p.1 lon p.2)).map List.length).sum =
        ((values.map (fun row => (row.filterMap id).length)).sum) := by
  intro lat
  induction lat with
  | nil =>
    intro values h1 h2
    obtain rfl : values = [] := List.length_eq_zero.mp (by simpa using h1)
    rfl
  | cons la lat ih =>
    intro values h1 h2
    cases values with
    | nil => simp at h1
    | cons row rows =>
      simp only [List.zip_cons_cons, List.map_cons, List.sum_cons]
      rw [rowTriples_length la lon row (h2 row (by simp))]
      rw [ih rows (by simpa using h1) (fun r hr => h2 r (by simp [hr]))]

/-- C7: on a well-formed 2-D slice, `prepare_mapbox_data` returns three
parallel sequences of equal length, one triple per non-missing cell of the
lat x lon cross product, and every position is internally consistent: the
value is the grid cell at the returned coordinate indices. -/
theorem prepare_mapbox_data_spec (g : Grid) (hwf : g.wf) :
    (prepare_mapbox_data g).1.length = (prepare_mapbox_data g).2.2.length ∧
    (prepare_mapbox_data g).2.1.length = (prepare_mapbox_data g).2.2.length ∧
    (prepare_mapbox_data g).2.2.length =
      (g.values.flatten.filterMap id).length ∧
    (∀ k, k < (prepare_mapbox_data g).2.2.length →
      ∃ i j, i < g.lat.length ∧ j < g.lon.length ∧
        (prepare_mapbox_data g).1.getD k 0 = g.lat.getD i 0 ∧
        (prepare_mapbox_data g).2.1.getD k 0 = g.lon.getD j 0 ∧
        (g.values.getD i []).getD j none =
          some ((prepare_mapbox_data g).2.2.getD k 0)) := by
  have htr := mapbox_triples_eq g hwf
  obtain ⟨hrows, hcols⟩ := hwf
  have hlen : (prepare_mapbox_data g).2.2.length =
      (mapbox_triples g).length := by
    simp [prepare_mapbox_data]
  refine ⟨by simp [prepare_mapbox_data], by simp [prepare_mapbox_data],
    ?_, ?_⟩
  · rw [hlen, htr, List.length_flatten]
    rw [zip_rowTriples_sum g.lon g.lat g.values hrows hcols]
    rw [List.filterMap_flatten, List.length_flatten, List.map_map]
    rfl
  · intro k hk
    have hk2 : k < (mapbox_triples g).length := by rwa [hlen] at hk
    set t := (mapbox_triples g).getD k ((0 : ℚ), (0 : ℚ), (0 : ℚ)) with hts
    have hmem : t ∈ mapbox_triples g := by
      rw [hts, List.getD_eq_getElem _ _ hk2]
      exact List.getElem_mem _
    rw [htr] at hmem
    obtain ⟨l, hl, htl⟩ := List.mem_flatten.mp hmem
    obtain ⟨p, hp, rfl⟩ := List.mem_map.mp hl
    obtain ⟨i, hi, hpi⟩ := List.mem_iff_getElem.mp hp
    have hilat : i < g.lat.length := by
      rw [List.length_zip] at hi
      omega
    have hival : i < g.values.length := by
      rw [List.length_zip] at hi
      omega
    have hp1 : p.1 = g.lat.getD i 0 := by
      rw [List.getD_eq_getElem _ _ hilat, ← hpi, List.getElem_zip]
    have hp2 : p.2 = g.values.getD i [] := by
      rw [List.getD_eq_getElem _ _ hival, ← hpi, List.getElem_zip]
    obtain ⟨h1, j, hj1, hj2, hj3, hj4⟩ :=
      mem_rowTriples p.1 g.lon p.2 _ htl
    have o1 : (prepare_mapbox_data g).1.getD k 0 =
        t.1 := by
      rw [hts]
      simp only [prepare_mapbox_data]
      exact getD_map_of_lt (fun u => u.1) _ k hk2 ((0 : ℚ), (0 : ℚ), (0 : ℚ)) 0
    have o2 : (prepare_mapbox_data g).2.1.getD k 0 =
        t.2.1 := by
      rw [hts]
      simp only [prepare_mapbox_data]
      exact getD_map_of_lt (fun u => u.2.1) _ k hk2
        ((0 : ℚ), (0 : ℚ), (0 : ℚ)) 0
    have o3 : (prepare_mapbox_data g).2.2.getD k 0 =
        t.2.2 := by
      rw [hts]
      simp only [prepare_mapbox_data]
      exact getD_map_of_lt (fun u => u.2.2) _ k hk2
        ((0 : ℚ), (0 : ℚ), (0 : ℚ)) 0
    refine ⟨i, j, hilat, hj1, ?_, ?_, ?_⟩
    · rw [o1, h1, hp1]
    · rw [o2, hj3]
    · rw [o3, ← hj4, hp2]

/-- `np.mean` of a list of values. -/
def np_mean (values : List ℚ) : ℚ := values.sum / values.length

/-- `np.nanmean` over a 2-D value block: the mean of the non-missing cells,
or NaN (`none`) when every cell is missing. -/
def np_nanmean (vals : List (List (Option ℚ))) : Option ℚ :=
  let valid := vals.flatten.filterMap id
  if valid.isEmpty then none else some (np_mean valid)

/-- The per-country categorisation of src/app.py lines 404-437: look up the
centroid, sample a 50-cell window for Australia and a 5-cell window
otherwise, then mean-then-classify (Australia), vote-then-classify
(elsewhere), or fall back to classifying the continental `np.nanmean` when
the sample is empty or the centroid is unknown. -/
def assign_category (isAustralia : Bool) (g : Grid)
    (country_centroids : List (String × ℚ × ℚ)) (country : String) : Nat :=
  match country_centroids.lookup country with
  | some c =>
    let grid_size := if isAustralia then 50 else 5
    let valid_values := get_region_spei_values g c.1 c.2 grid_size
    if valid_values.length > 0 then
      if isAustralia then categorize_spei (some (np_mean valid_values))
      else dominant_category valid_values
    else categorize_spei (np_nanmean g.values)
  | none => categorize_spei (np_nanmean g.values)

/-- The aggregation loop of src/app.py lines 402-437: starting from seven
empty buckets, append every country of the continent to the bucket of its
assigned category. -/
def country_categories (isAustralia : Bool) (g : Grid)
    (country_centroids : List (String × ℚ × ℚ))
    (countries : List String) : List (List String) :=
  countries.foldl
    (fun buckets country =>
      let category := assign_category isAustralia g country_centroids country
      buckets.set category (buckets.getD category [] ++ [country]))
    (List.replicate 7 [])

theorem categorize_spei_lt_seven (v : Option ℚ) : categorize_spei v < 7 := by
  match v with
  | none => simp [categorize_spei]
  | some x =>
    simp only [categorize_spei]
    split <;> [skip; split] <;> [omega; omega; split] <;>
      [omega; split] <;> [omega; split] <;> [omega; split] <;> omega

theorem np_argmax_lt_length (xs : List Nat) (h : xs ≠ []) :
    np_argmax xs < xs.length := by
  cases hp : argmaxPair xs with
  | none => exact absurd ((argmaxPair_eq_none xs).mp hp) h
  | some p =>
    rcases p with ⟨i, v⟩
    have := (argmaxPair_spec 0 xs i v hp).1
    simpa [np_argmax, hp] using this

theorem dominant_category_lt_seven (values : List ℚ) :
    dominant_category values < 7 := by
  have h : (bincount7 (values.map (fun v => categorize_spei (some v)))).length
      = 7 := by simp [bincount7]
  have := np_argmax_lt_length
    (bincount7 (values.map (fun v => categorize_spei (some v))))
    (by intro hc; rw [hc] at h; simp at h)
  rw [h] at this
  exact this

theorem assign_category_lt_seven (isAustralia : Bool) (g : Grid)
    (cents : List (String × ℚ × ℚ)) (country : String) :
    assign_category isAustralia g cents country < 7 := by
  rw [assign_category]
  cases cents.lookup country with
  | none => exact categorize_spei_lt_seven _
  | some c =>
    simp only
    split
    all_goals try split
    all_goals
      first
        | exact categorize_spei_lt_seven _
        | exact dominant_category_lt_seven _

theorem getD_replicate_empty (i : Nat) :
    (List.replicate 7 ([] : List String)).getD i [] = [] := by
  rcases Nat.lt_or_ge i 7 with h | h
  · rw [List.getD_eq_getElem _ _ (by simpa using h)]
    simp only [List.replicate]
    interval_cases i <;> rfl
  · rw [List.getD_eq_getElem?_getD, List.getElem?_eq_none (by simpa using h)]
    rfl

theorem country_categories_mem (isAustralia : Bool) (g : Grid)
    (cents : List (String × ℚ × ℚ)) :
    ∀ (countries : List String) (B : List (List String)), B.length = 7 →
      (countries.foldl
          (fun buckets country =>
            let category := assign_category isAustralia g cents country
            buckets.set category (buckets.getD category [] ++ [country]))
          B).length = 7 ∧
      (∀ i, i < 7 → ∀ name,
        (name ∈ (countries.foldl
            (fun buckets country =>
              let category := assign_category isAustralia g cents country
              buckets.set category (buckets.getD category [] ++ [country]))
            B).getD i [] ↔
          name ∈ B.getD i [] ∨
            (name ∈ countries ∧
              assign_category isAustralia g cents name = i))) := by
  intro countries
  induction countries with
  | nil =>
    intro B hB
    refine ⟨hB, ?_⟩
    intro i hi name
    simp
  | cons c cs ih =>
    intro B hB
    simp only [List.foldl_cons]
    have haB : assign_category isAustralia g cents c < B.length := by
      rw [hB]
      exact assign_category_lt_seven isAustralia g cents c
    obtain ⟨hL, hmem⟩ := ih
      (B.set (assign_category isAustralia g cents c)
        ((B.getD (assign_category isAustralia g cents c) []) ++ [c]))
      (by simpa using hB)
    refine ⟨hL, ?_⟩
    intro i hi name
    rw [hmem i hi name]
    have hset : (B.set (assign_category isAustralia g cents c)
        ((B.getD (assign_category isAustralia g cents c) []) ++ [c])).getD
          i [] =
        if assign_category isAustralia g cents c = i
        then (B.getD (assign_category isAustralia g cents c) []) ++ [c]
        else B.getD i [] := by
      by_cases hia : assign_category isAustralia g cents c = i
      · rw [if_pos hia, ← hia]
        rw [List.getD_eq_getElem _ _ (by simpa using haB)]
        simp
      · rw [if_neg hia]
        have hiB : i < B.length := by omega
        rw [List.getD_eq_getElem _ _ (by simpa using hiB),
          List.getElem_set_ne hia, ← List.getD_eq_getElem _ _ hiB]
    rw [hset]
    by_cases hia : assign_category isAustralia g cents c = i
    · rw [if_pos hia, hia]
      constructor
      · rintro (hb | ⟨hcs, hass⟩)
        · rcases List.mem_append.mp hb with hb1 | hb2
          · exact Or.inl hb1
          · have : name = c := by simpa using hb2
            subst this
            exact Or.inr ⟨List.mem_cons_self name cs, hia⟩
        · exact Or.inr ⟨List.mem_cons_of_mem c hcs, hass⟩
      · rintro (hb | ⟨hnc, hass⟩)
        · exact Or.inl (List.mem_append_left _ hb)
        · rcases List.mem_cons.mp hnc with rfl | hcs
          · exact Or.inl (List.mem_append_right _ (by simp))
          · exact Or.inr ⟨hcs, hass⟩
    · rw [if_neg hia]
      constructor
      · rintro (hb | ⟨hcs, hass⟩)
        · exact Or.inl hb
        · exact Or.inr ⟨List.mem_cons_of_mem c hcs, hass⟩
      · rintro (hb | ⟨hnc, hass⟩)
        · exact Or.inl hb
        · rcases List.mem_cons.mp hnc with rfl | hcs
          · exact absurd hass hia
          · exact Or.inr ⟨hcs, hass⟩

/-- C10: the aggregation loop produces exactly 7 buckets; every country of
the continent appears in exactly one bucket (across all assignment paths:
vote, Australian mean, empty-sample fallback, missing-centroid fallback),
and the buckets contain only countries of the input list — pairwise
disjoint and jointly covering. -/
theorem country_categories_partition (isAustralia : Bool) (g : Grid)
    (cents : List (String × ℚ × ℚ)) (countries : List String) :
    (country_categories isAustralia g cents countries).length = 7 ∧
    (∀ name, name ∈ countries →
      ∃ i, i < 7 ∧
        name ∈ (country_categories isAustralia g cents countries).getD i [] ∧
        (∀ j, j < 7 →
          name ∈ (country_categories isAustralia g cents countries).getD j []
            → j = i)) ∧
    (∀ i, i < 7 → ∀ name,
      name ∈ (country_categories isAustralia g cents countries).getD i [] →
      name ∈ countries) := by
  obtain ⟨hL, hmem⟩ := country_categories_mem isAustralia g cents countries
    (List.replicate 7 []) (by simp)
  have hcc : country_categories isAustralia g cents countries =
      countries.foldl
        (fun buckets country =>
          let category := assign_category isAustralia g cents country
          buckets.set category (buckets.getD category [] ++ [country]))
        (List.replicate 7 []) := rfl
  refine ⟨by rw [hcc]; exact hL, ?_, ?_⟩
  · intro name hn
    refine ⟨assign_category isAustralia g cents name,
      assign_category_lt_seven isAustralia g cents name, ?_, ?_⟩
    · rw [hcc,
        hmem _ (assign_category_lt_seven isAustralia g cents name) name,
        getD_replicate_empty]
      exact Or.inr ⟨hn, rfl⟩
    · intro j hj hmemj
      rw [hcc, hmem j hj name, getD_replicate_empty] at hmemj
      rcases hmemj with h0 | ⟨_, hass⟩
      · simp at h0
      · exact hass.symm
  · intro i hi name hmemi
    rw [hcc, hmem i hi name, getD_replicate_empty] at hmemi
    rcases hmemi with h0 | ⟨hn, _⟩
    · simp at h0
    · exact hn

/-- A grid with empty coordinate axes: sampling on it always falls into the
empty-result path. -/
def emptyGrid : Grid := Grid.mk [] [] []

/-- C10 witness: two countries, one with a centroid and one without, over
an empty grid; both land in exactly one bucket and there are 7 buckets. -/
theorem country_categories_partition_witness :
    (country_categories false emptyGrid [("Egypt", 1, 2)]
      ["Egypt", "Kenya"]).length = 7 ∧
    (∃ i, i < 7 ∧
      "Egypt" ∈ (country_categories false emptyGrid [("Egypt", 1, 2)]
        ["Egypt", "Kenya"]).getD i [] ∧
      (∀ j, j < 7 →
        "Egypt" ∈ (country_categories false emptyGrid [("Egypt", 1, 2)]
          ["Egypt", "Kenya"]).getD j [] → j = i)) :=
  ⟨(country_categories_partition false emptyGrid [("Egypt", 1, 2)]
      ["Egypt", "Kenya"]).1,
   (country_categories_partition false emptyGrid [("Egypt", 1, 2)]
      ["Egypt", "Kenya"]).2.1 "Egypt" (by simp)⟩

/-- C8: the sampler returns an empty sequence — not an error — when a
coordinate axis is empty (the case where the numpy argmin raises and the
except clause returns an empty array; every other step of the body is
total), and the orchestration assigns the continental nanmean-classified
fallback category to a country whose centroid is unknown or whose sampling
yields no valid values. -/
theorem assign_category_fallback_spec (isAustralia : Bool) (g : Grid)
    (cents : List (String × ℚ × ℚ)) (country : String) :
    (g.lat = [] ∨ g.lon = [] →
      ∀ lat lon grid_size,
        get_region_spei_values g lat lon grid_size = []) ∧
    (cents.lookup country = none →
      assign_category isAustralia g cents country =
        categorize_spei (np_nanmean g.values)) ∧
    (∀ lat lon, cents.lookup country = some (lat, lon) →
      get_region_spei_values g lat lon (if isAustralia then 50 else 5) = []
        → assign_category isAustralia g cents country =
            categorize_spei (np_nanmean g.values)) := by
  refine ⟨?_, ?_, ?_⟩
  · intro h lat lon gs
    rw [get_region_spei_values]
    rcases h with h | h <;> simp [h]
  · intro h
    rw [assign_category, h]
  · intro lat lon hlk hempty
    rw [assign_category, hlk]
    simp [hempty]

/-- C8 witness: an empty grid and a one-entry centroid table; the sampler
returns the empty list, and both the unknown-centroid country and the
empty-sample country get the fallback category. -/
theorem assign_category_fallback_witness :
    get_region_spei_values emptyGrid 0 0 5 = [] ∧
    assign_category false emptyGrid [("Egypt", 1, 2)] "Kenya" =
      categorize_spei (np_nanmean emptyGrid.values) ∧
    assign_category false emptyGrid [("Egypt", 1, 2)] "Egypt" =
      categorize_spei (np_nanmean emptyGrid.values) :=
  ⟨(assign_category_fallback_spec false emptyGrid [("Egypt", 1, 2)]
      "Kenya").1 (Or.inl rfl) 0 0 5,
   (assign_category_fallback_spec false emptyGrid [("Egypt", 1, 2)]
      "Kenya").2.1 rfl,
   (assign_category_fallback_spec false emptyGrid [("Egypt", 1, 2)]
      "Egypt").2.2 1 2 rfl rfl⟩

/-- C6 witness: the partition and the 100% percentage sum on a concrete
array with one missing and two valid cells. -/
theorem calculate_category_count_partition_witness :
    (∑ idx ∈ Finset.range 7,
      calculate_category_count [some 0, none, some 2] idx) =
      (([some 0, none, some 2] : List (Option ℚ)).filterMap id).length ∧
    (∑ idx ∈ Finset.range 7,
      (calculate_category_count [some 0, none, some 2] idx : ℚ) /
        ((([some 0, none, some 2] : List (Option ℚ)).filterMap id).length :
          ℚ) * 100) = 100 :=
  ⟨(calculate_category_count_partition [some 0, none, some 2]).1,
   (calculate_category_count_partition [some 0, none, some 2]).2
     (by decide)⟩

/-- A concrete 2 x 2 grid with one missing cell among four. -/
def sampleGrid2 : Grid :=
  Grid.mk [0, 1] [10, 20] [[some 5, none], [some 7, some 8]]

/-- C7 witness: the flattener on the 2 x 2 grid with one missing cell
returns exactly 3 triples, the number of non-missing cells. -/
theorem prepare_mapbox_data_witness :
    (prepare_mapbox_data sampleGrid2).2.2.length = 3 ∧
    (prepare_mapbox_data sampleGrid2).2.2.length =
      (sampleGrid2.values.flatten.filterMap id).length :=
  ⟨by decide,
   (prepare_mapbox_data_spec sampleGrid2 ⟨by decide, by decide⟩).2.2.1⟩

end DroughtMonitor
